import Mathlib

/-!
Verification of the tn-bench storage benchmark harness.

Shallow embedding of the parts of the program the claims are about:
* the phase-detection state machine of `core/zpool_iostat_collector.py`
  (`PhaseDetector`), with float arithmetic idealised over `ℚ`;
* the statistical reducer `_calculate_stats` and the unit parsers
  `_parse_value_with_suffix`, `_parse_bandwidth_mbps`, `_parse_latency_ms`
  of the same module;
* the workload driver `run_single_iteration` and the benchmark class
  `ZFSPoolBenchmark` of `benchmarks/zfs_pool.py`, modelled through their
  observable action traces;
* `create_dataset` of `core/dataset.py`, `calculate_dwpd` and
  `_robust_dataset_cleanup` of `truenas-bench.py`, the latter against an
  explicit environment of dataset-query and delete-call outcomes.
-/

namespace TnBench

/-- The `Phase` enum of `core/zpool_iostat_collector.py` (workload phases
detected from IOPS patterns). -/
inductive Phase where
  | idle
  | warmup
  | steady_state
  | cooldown
  | transition
deriving DecidableEq, Repr

/-- The `PhaseSpan` dataclass: a contiguous span where the workload was in a
single phase.  Times are idealised as rationals. -/
structure PhaseSpan where
  phase : Phase
  start_time : ℚ
  end_time : ℚ
  start_index : ℕ
  end_index : ℕ
  sample_count : ℕ
  segment_label : String
deriving DecidableEq, Repr

/-- The keyword parameters of `PhaseDetector.__init__`. -/
structure PDParams where
  idle_threshold : ℚ
  active_threshold : ℚ
  steady_cv_max : ℚ
  window_size : ℕ
  min_hold_samples : ℕ
deriving DecidableEq, Repr

/-- The default parameter values of `PhaseDetector.__init__`. -/
def PDParams.default : PDParams :=
  { idle_threshold := 500
    active_threshold := 5000
    steady_cv_max := 50
    window_size := 3
    min_hold_samples := 2 }

/-- The mutable state of a `PhaseDetector` instance. -/
structure PDState where
  iops_history : List ℚ
  current_phase : Phase
  candidate_phase : Option Phase
  candidate_count : ℕ
  prev_window_mean : ℚ
  spans : List PhaseSpan
  current_span : Option PhaseSpan
  sample_index : ℕ
  segment_label : String
deriving DecidableEq, Repr

/-- The state a fresh `PhaseDetector` starts in (`__init__`). -/
def PDState.init : PDState :=
  { iops_history := []
    current_phase := Phase.idle
    candidate_phase := none
    candidate_count := 0
    prev_window_mean := 0
    spans := []
    current_span := none
    sample_index := 0
    segment_label := "" }

/-- Python slice `history[-window_size:]`: the last `w` elements, except that
`w = 0` (slice `[-0:]` = `[0:]`) yields the whole list. -/
def windowOf (w : ℕ) (l : List ℚ) : List ℚ :=
  if w = 0 then l else l.drop (l.length - w)

/-- The exact rational form of the steady-state CV test of
`PhaseDetector._classify_window`: with `std = sqrt variance`, the Python test
`cv < steady_cv_max` where `cv = std / mean * 100` if `mean > 0` else `0`.
For `mean > 0` this is `std < bound` with `bound = steady_cv_max * mean / 100`,
which (both sides nonnegative once `0 < bound`) is `0 < bound ∧ variance < bound ^ 2`. -/
def cvBelowMax (steady_cv_max mean variance : ℚ) : Prop :=
  (0 < mean ∧ 0 < steady_cv_max * mean / 100 ∧
      variance < (steady_cv_max * mean / 100) ^ 2) ∨
  (¬ 0 < mean ∧ 0 < steady_cv_max)

instance (m x v : ℚ) : Decidable (cvBelowMax m x v) := by
  unfold cvBelowMax; infer_instance

/-- `PhaseDetector._classify_window`, returning the raw phase together with the
updated `_prev_window_mean`.  The method reads `_iops_history`,
`_current_phase` and `_prev_window_mean`, which are passed explicitly. -/
def classifyWindow (p : PDParams) (current_phase : Phase) (prev_mean : ℚ)
    (history : List ℚ) : Phase × ℚ :=
  let window := windowOf p.window_size history
  if window = [] then (Phase.idle, prev_mean)
  else
    let mean : ℚ := window.sum / window.length
    if mean < p.idle_threshold then (Phase.idle, mean)
    else
      let variance : ℚ := (window.map (fun x => (x - mean) ^ 2)).sum / window.length
      if p.active_threshold ≤ mean ∧ p.window_size ≤ window.length ∧
          cvBelowMax p.steady_cv_max mean variance then
        (Phase.steady_state, mean)
      else if (current_phase = Phase.idle ∨ current_phase = Phase.transition) ∧
          prev_mean * (3 / 2) < mean ∧ p.idle_threshold ≤ mean then
        (Phase.warmup, mean)
      else if current_phase = Phase.steady_state ∧ mean < prev_mean * (1 / 2) then
        (Phase.cooldown, mean)
      else
        (Phase.transition, mean)

/-- `PhaseDetector._start_span`. -/
def startSpan (st : PDState) (phase : Phase) (t : ℚ) : PDState :=
  let sp : PhaseSpan :=
    { phase := phase
      start_time := t
      end_time := t
      start_index := st.sample_index
      end_index := st.sample_index
      sample_count := 1
      segment_label := st.segment_label }
  { st with current_span := some sp }

/-- `PhaseDetector._commit_phase`: close the open span (if any) and start a
new one with the committed phase. -/
def commitPhase (st : PDState) (new_phase : Phase) (t : ℚ) : PDState :=
  let st' :=
    match st.current_span with
    | some sp => { st with spans := st.spans ++ [sp], current_span := none }
    | none => st
  startSpan { st' with current_phase := new_phase } new_phase t

/-- The span-bookkeeping tail of `PhaseDetector.push`: the hysteresis commit
check, the unconditional update of the running span, and the sample-index
increment.  `st` is the state after the candidate bookkeeping. -/
def pushSpans (p : PDParams) (st : PDState) (raw : Phase) (t : ℚ) : PDState :=
  let st2 :=
    if p.min_hold_samples ≤ st.candidate_count ∧ raw ≠ st.current_phase then
      commitPhase st raw t
    else st
  let st3 :=
    match st2.current_span with
    | some sp =>
        let sp' := { sp with end_time := t, end_index := st2.sample_index,
                             sample_count := sp.sample_count + 1 }
        { st2 with current_span := some sp' }
    | none => startSpan st2 st2.current_phase t
  { st3 with sample_index := st3.sample_index + 1 }

/-- `PhaseDetector.push`: feed one sample, returning the new state and the
(possibly updated) current phase. -/
def push (p : PDParams) (st : PDState) (total_iops t : ℚ) : PDState × Phase :=
  let history := st.iops_history ++ [total_iops]
  let rc := classifyWindow p st.current_phase st.prev_window_mean history
  let raw := rc.1
  let st1 :=
    if st.candidate_phase ≠ some raw then
      { st with iops_history := history, prev_window_mean := rc.2,
                candidate_phase := some raw, candidate_count := 1 }
    else
      { st with iops_history := history, prev_window_mean := rc.2,
                candidate_count := st.candidate_count + 1 }
  let stF := pushSpans p st1 raw t
  (stF, stF.current_phase)

/-- `PhaseDetector.finalize`: close the last span and return all spans. -/
def finalize (st : PDState) : List PhaseSpan :=
  match st.current_span with
  | some sp => st.spans ++ [sp]
  | none => st.spans

/-- Feed a whole sample sequence of `(total_iops, timestamp)` pairs. -/
def pushAll (p : PDParams) (samples : List (ℚ × ℚ)) (st : PDState) : PDState :=
  samples.foldl (fun s x => (push p s x.1 x.2).1) st

/-- The index range `[start_index, end_index]` covered by one span. -/
def spanIndices (sp : PhaseSpan) : List ℕ :=
  List.range' sp.start_index (sp.end_index + 1 - sp.start_index)

/-- Concatenation of the index ranges of a span list. -/
def spansIndices (l : List PhaseSpan) : List ℕ :=
  (l.map spanIndices).flatten

/-- `chainFrom n l m`: the spans `l` tile the index interval `[n, m-1]`
contiguously — the first starts at `n`, each has `start_index ≤ end_index`,
each subsequent span starts one past the previous end, and `m` is one past
the last end (with `m = n` when `l` is empty). -/
def chainFrom : ℕ → List PhaseSpan → ℕ → Prop
  | n, [], m => m = n
  | n, sp :: rest, m =>
      sp.start_index = n ∧ sp.start_index ≤ sp.end_index ∧
        chainFrom (sp.end_index + 1) rest m

theorem chainFrom_snoc_iff (l : List PhaseSpan) (n m : ℕ) (sp : PhaseSpan) :
    chainFrom n (l ++ [sp]) m ↔
      ∃ k, chainFrom n l k ∧ sp.start_index = k ∧
        sp.start_index ≤ sp.end_index ∧ m = sp.end_index + 1 := by
  induction l generalizing n with
  | nil =>
      simp only [List.nil_append, chainFrom]
      constructor
      · rintro ⟨h1, h2, h3⟩
        exact ⟨n, rfl, h1, h2, h3⟩
      · rintro ⟨k, hk, h1, h2, h3⟩
        exact ⟨h1.trans hk, h2, h3⟩
  | cons a rest ih =>
      simp only [List.cons_append, chainFrom]
      constructor
      · rintro ⟨h1, h2, h3⟩
        obtain ⟨k, hk, h4, h5, h6⟩ := (ih _).mp h3
        exact ⟨k, ⟨h1, h2, hk⟩, h4, h5, h6⟩
      · rintro ⟨k, ⟨h1, h2, hk⟩, h4, h5, h6⟩
        exact ⟨h1, h2, (ih _).mpr ⟨k, hk, h4, h5, h6⟩⟩

/-- The state invariant maintained by `push`: the closed spans plus the open
span tile `[0, sample_index - 1]`; before the first sample there are no spans. -/
def SpanInv (st : PDState) : Prop :=
  match st.current_span with
  | none => st.spans = [] ∧ st.sample_index = 0
  | some sp => chainFrom 0 (st.spans ++ [sp]) st.sample_index

theorem SpanInv.init : SpanInv PDState.init := by
  constructor <;> rfl

theorem pushSpans_sample_index (p : PDParams) (st : PDState) (raw : Phase) (t : ℚ) :
    (pushSpans p st raw t).sample_index = st.sample_index + 1 := by
  unfold pushSpans commitPhase startSpan
  dsimp only
  by_cases hc : p.min_hold_samples ≤ st.candidate_count ∧ raw ≠ st.current_phase
  · rw [if_pos hc]
    rcases hcs : st.current_span with _ | sp <;> simp [hcs]
  · rw [if_neg hc]
    rcases hcs : st.current_span with _ | sp <;> simp [hcs]

theorem pushSpans_spanInv (p : PDParams) (st : PDState) (raw : Phase) (t : ℚ)
    (h : SpanInv st) : SpanInv (pushSpans p st raw t) := by
  unfold pushSpans commitPhase startSpan
  dsimp only
  unfold SpanInv at h ⊢
  by_cases hc : p.min_hold_samples ≤ st.candidate_count ∧ raw ≠ st.current_phase
  · rw [if_pos hc]
    rcases hcs : st.current_span with _ | sp
    · rw [hcs] at h
      dsimp only at h ⊢
      obtain ⟨hsp, hidx⟩ := h
      rw [chainFrom_snoc_iff, hsp, hidx]
      exact ⟨0, rfl, rfl, le_refl _, rfl⟩
    · rw [hcs] at h
      dsimp only at h ⊢
      rw [chainFrom_snoc_iff]
      exact ⟨st.sample_index, h, rfl, le_refl _, rfl⟩
  · rw [if_neg hc]
    rcases hcs : st.current_span with _ | sp
    · rw [hcs] at h
      dsimp only at h ⊢
      obtain ⟨hsp, hidx⟩ := h
      rw [chainFrom_snoc_iff, hsp, hidx]
      exact ⟨0, rfl, rfl, le_refl _, rfl⟩
    · rw [hcs] at h
      dsimp only at h ⊢
      obtain ⟨k, hk, hstart, hle, hm⟩ := (chainFrom_snoc_iff _ _ _ _).mp h
      rw [chainFrom_snoc_iff]
      exact ⟨k, hk, hstart, by dsimp only; omega, by dsimp only⟩

theorem push_sample_index (p : PDParams) (st : PDState) (v t : ℚ) :
    ((push p st v t).1).sample_index = st.sample_index + 1 := by
  unfold push
  dsimp only
  split <;> rw [pushSpans_sample_index]

theorem push_spanInv (p : PDParams) (st : PDState) (v t : ℚ) (h : SpanInv st) :
    SpanInv ((push p st v t).1) := by
  unfold push
  dsimp only
  split <;> exact pushSpans_spanInv _ _ _ _ h

theorem pushAll_spanInv (p : PDParams) (samples : List (ℚ × ℚ)) (st : PDState)
    (h : SpanInv st) : SpanInv (pushAll p samples st) := by
  induction samples generalizing st with
  | nil => exact h
  | cons a rest ih => exact ih _ (push_spanInv _ _ _ _ h)

theorem pushAll_sample_index (p : PDParams) (samples : List (ℚ × ℚ)) (st : PDState) :
    (pushAll p samples st).sample_index = st.sample_index + samples.length := by
  induction samples generalizing st with
  | nil => rfl
  | cons a rest ih =>
      show (pushAll p rest ((push p st a.1 a.2).1)).sample_index = _
      rw [ih, push_sample_index]
      simp only [List.length_cons]
      omega

theorem chainFrom_le (l : List PhaseSpan) (n m : ℕ) (h : chainFrom n l m) : n ≤ m := by
  induction l generalizing n with
  | nil =>
      have h' : m = n := h
      omega
  | cons sp rest ih =>
      obtain ⟨h1, h2, h3⟩ := h
      have := ih _ h3
      omega

theorem chainFrom_props (l : List PhaseSpan) (n m : ℕ) (h : chainFrom n l m) :
    (∀ sp ∈ l, sp.start_index ≤ sp.end_index) ∧
    List.Chain' (fun a b => b.start_index = a.end_index + 1) l ∧
    spansIndices l = List.range' n (m - n) := by
  induction l generalizing n with
  | nil =>
      obtain rfl := h
      refine ⟨by simp, List.chain'_nil, ?_⟩
      simp [spansIndices]
  | cons sp rest ih =>
      obtain ⟨h1, h2, h3⟩ := h
      obtain ⟨ha, hb, hc⟩ := ih _ h3
      have hnm : sp.end_index + 1 ≤ m := chainFrom_le _ _ _ h3
      refine ⟨?_, ?_, ?_⟩
      · intro x hx
        rcases hx with _ | hx
        · exact h2
        · exact ha _ (by assumption)
      · cases rest with
        | nil => simp
        | cons sp2 rest2 =>
            obtain ⟨h31, _, _⟩ := h3
            exact List.chain'_cons.mpr ⟨h31, hb⟩
      · simp only [spansIndices, List.map_cons, List.flatten_cons]
        have hrest : (rest.map spanIndices).flatten = List.range' (sp.end_index + 1) (m - (sp.end_index + 1)) := hc
        rw [hrest]
        unfold spanIndices
        rw [h1]
        have e2 : n + (sp.end_index + 1 - n) = sp.end_index + 1 := by omega
        have e3 : (m - (sp.end_index + 1)) + (sp.end_index + 1 - n) = m - n := by omega
        calc List.range' n (sp.end_index + 1 - n) ++
              List.range' (sp.end_index + 1) (m - (sp.end_index + 1))
            = List.range' n (sp.end_index + 1 - n) ++
              List.range' (n + (sp.end_index + 1 - n)) (m - (sp.end_index + 1)) := by rw [e2]
          _ = List.range' n ((m - (sp.end_index + 1)) + (sp.end_index + 1 - n)) :=
              List.range'_append_1 _ _ _
          _ = List.range' n (m - n) := by rw [e3]

/-- C2: for every finite sequence of IOPS samples pushed into a
`PhaseDetector` (any parameters) followed by `finalize`, the returned span
list satisfies: every span has `start_index ≤ end_index`, each span starts
one past the previous span's end (so spans are index-contiguous and
non-overlapping), and the concatenation of the span index ranges is exactly
`[0, N-1]` for `N` pushed samples. -/
theorem phaseDetector_spans_partition (p : PDParams) (samples : List (ℚ × ℚ)) :
    (∀ sp ∈ finalize (pushAll p samples PDState.init), sp.start_index ≤ sp.end_index) ∧
    List.Chain' (fun a b => b.start_index = a.end_index + 1)
      (finalize (pushAll p samples PDState.init)) ∧
    spansIndices (finalize (pushAll p samples PDState.init)) =
      List.range samples.length := by
  have hinv := pushAll_spanInv p samples PDState.init SpanInv.init
  have hidx := pushAll_sample_index p samples PDState.init
  have hidx0 : (PDState.init).sample_index = 0 := rfl
  rw [hidx0] at hidx
  unfold SpanInv at hinv
  unfold finalize
  rcases hcs : (pushAll p samples PDState.init).current_span with _ | sp
  · rw [hcs] at hinv
    obtain ⟨h1, h2⟩ := hinv
    have hlen : samples.length = 0 := by omega
    rw [h1, hlen]
    refine ⟨by simp, List.chain'_nil, ?_⟩
    simp [spansIndices]
  · rw [hcs] at hinv
    have hprops := chainFrom_props _ _ _ hinv
    have hN : (pushAll p samples PDState.init).sample_index = samples.length := by omega
    rw [hN] at hprops
    refine ⟨hprops.1, hprops.2.1, ?_⟩
    rw [hprops.2.2, List.range_eq_range', Nat.sub_zero]

/-- C10: the first sample pushed into a freshly constructed `PhaseDetector`
with `min_hold_samples ≥ 2` is classified as `idle`, whatever its value:
the committed phase starts as IDLE and the hysteresis counter is 1 < 2, so
no transition can be committed on the first sample. -/
theorem first_push_is_idle (p : PDParams) (h : 2 ≤ p.min_hold_samples)
    (v t : ℚ) : (push p PDState.init v t).2 = Phase.idle := by
  unfold push
  dsimp only
  rw [if_pos (by simp [PDState.init])]
  unfold pushSpans
  dsimp only [PDState.init]
  rw [if_neg (by rintro ⟨h1, h2⟩; omega)]
  rfl

/-- Witness for C10 at the default parameters (`min_hold_samples = 2`) and a
first sample of 6000 IOPS, above the default `active_threshold` of 5000. -/
theorem first_push_is_idle_witness :
    2 ≤ PDParams.default.min_hold_samples ∧
      (push PDParams.default PDState.init 6000 0).2 = Phase.idle :=
  ⟨le_refl 2, first_push_is_idle PDParams.default (le_refl 2) 6000 0⟩

/-! ### String and number parsing helpers

The Python code parses telemetry fields with the builtin `float` after
slicing off unit suffixes.  Strings are modelled as their character lists;
`parseFloatL` models the plain-decimal fragment of `float` (an optional
decimal point between digit runs), which covers every string this program
feeds it — any other input makes `float` raise `ValueError`, modelled as
`none`. -/

/-- Python `str.strip()` whitespace test (the whitespace characters relevant
here). -/
def isPySpace (c : Char) : Bool :=
  c = ' ' ∨ c = '\t' ∨ c = '\n' ∨ c = '\x0d' ∨ c = '\x0b' ∨ c = '\x0c'

/-- Python `str.strip()`: drop leading and trailing whitespace. -/
def stripL (l : List Char) : List Char :=
  ((l.dropWhile isPySpace).reverse.dropWhile isPySpace).reverse

/-- Numeric value of a digit run. -/
def digitsVal (l : List Char) : ℕ :=
  l.foldl (fun a c => a * 10 + (c.toNat - 48)) 0

/-- The plain-decimal fragment of Python `float`: digits with at most one
decimal point and at least one digit overall; anything else is a
`ValueError` (`none`). -/
def parseFloatL (cs : List Char) : Option ℚ :=
  let intPart := cs.takeWhile Char.isDigit
  let rest := cs.dropWhile Char.isDigit
  if rest = [] then
    if intPart = [] then none else some (digitsVal intPart)
  else if rest.head? = some '.' then
    let frac := rest.tail
    if frac.all Char.isDigit ∧ (intPart ≠ [] ∨ frac ≠ []) then
      some ((digitsVal intPart : ℚ) + (digitsVal frac : ℚ) / (10 : ℚ) ^ frac.length)
    else none
  else none

theorem stripL_eq_self (l : List Char) (h : ∀ c ∈ l, isPySpace c = false) :
    stripL l = l := by
  have k : ∀ m : List Char, (∀ c ∈ m, isPySpace c = false) →
      m.dropWhile isPySpace = m := by
    intro m hm
    cases m with
    | nil => rfl
    | cons a tl =>
        rw [List.dropWhile_cons, hm a (List.mem_cons_self a tl)]
        simp
  unfold stripL
  rw [k l h, k l.reverse (fun c hc => h c (List.mem_reverse.mp hc)),
    List.reverse_reverse]

/-- Appending a character that is neither a digit nor a decimal point makes
the whole string unparseable for `float`. -/
theorem parseFloatL_snoc_non_digit (l : List Char) (c : Char)
    (hd : c.isDigit = false) (hdot : c ≠ '.') : parseFloatL (l ++ [c]) = none := by
  unfold parseFloatL
  dsimp only
  rw [List.dropWhile_append]
  by_cases hE : (l.dropWhile Char.isDigit).isEmpty
  · rw [if_pos hE]
    rw [show ([c] : List Char) = c :: [] from rfl, List.dropWhile_cons, hd]
    simp [hdot]
  · rw [if_neg hE]
    obtain ⟨d, tl, hdt⟩ : ∃ d tl, l.dropWhile Char.isDigit = d :: tl := by
      cases hh : l.dropWhile Char.isDigit with
      | nil => rw [hh] at hE; simp at hE
      | cons d tl => exact ⟨d, tl, rfl⟩
    rw [hdt]
    by_cases hd' : d = '.'
    · subst hd'
      simp only [List.cons_append, List.head?_cons, List.tail_cons]
      rw [if_neg (by simp), if_pos trivial, if_neg]
      · rintro ⟨hall, -⟩
        have := (List.all_eq_true.mp hall) c (by simp)
        rw [hd] at this
        exact Bool.false_ne_true this
    · rw [if_neg (by simp), if_neg (by simp [hd'])]

/-- The suffix multipliers of `ZpoolIostatCollector._parse_value_with_suffix`
(decimal: `10³` per step). -/
def suffix_multipliers (c : Char) : Option ℚ :=
  if c = 'K' then some 1000
  else if c = 'M' then some 1000000
  else if c = 'G' then some 1000000000
  else if c = 'T' then some 1000000000000
  else none

/-- `ZpoolIostatCollector._parse_value_with_suffix` on a character list.
`none` models the `ValueError`/`IndexError` the method can raise (its caller
catches them). -/
def parse_value_with_suffixL (cs : List Char) : Option ℚ :=
  if cs = [] ∨ cs = ['-'] then some 0
  else
    let v := stripL cs
    match v.getLast? with
    | none => none
    | some c =>
        match suffix_multipliers c with
        | some m => (parseFloatL v.dropLast).map (fun q => q * m)
        | none => parseFloatL v

/-- `ZpoolIostatCollector._parse_value_with_suffix`. -/
def parse_value_with_suffix (value : String) : Option ℚ :=
  parse_value_with_suffixL value.toList

/-- C7: the suffixed-counter parser maps `"0"`, `"123"`, `"1.77K"`, `"292M"`,
`"1.5G"`, `"2.5T"`, `"-"`, `""` to exactly `0`, `123`, `1770`, `292000000`,
`1500000000`, `2500000000000`, `0`, `0`. -/
theorem parse_value_with_suffix_cases :
    parse_value_with_suffix "0" = some 0 ∧
    parse_value_with_suffix "123" = some 123 ∧
    parse_value_with_suffix "1.77K" = some 1770 ∧
    parse_value_with_suffix "292M" = some 292000000 ∧
    parse_value_with_suffix "1.5G" = some 1500000000 ∧
    parse_value_with_suffix "2.5T" = some 2500000000000 ∧
    parse_value_with_suffix "-" = some 0 ∧
    parse_value_with_suffix "" = some 0 := by
  refine ⟨?_, ?_, ?_, ?_, ?_, ?_, rfl, rfl⟩
  · show some ((digitsVal ['0'] : ℚ)) = some 0
    rw [show digitsVal ['0'] = 0 from rfl]
    norm_num
  · show some ((digitsVal ['1', '2', '3'] : ℚ)) = some 123
    rw [show digitsVal ['1', '2', '3'] = 123 from rfl]
    norm_num
  · show Option.map (fun q => q * 1000)
        (some ((digitsVal ['1'] : ℚ) +
          (digitsVal ['7', '7'] : ℚ) / (10 : ℚ) ^ (['7', '7'] : List Char).length)) =
      some 1770
    rw [show digitsVal ['1'] = 1 from rfl, show digitsVal ['7', '7'] = 77 from rfl]
    norm_num [Option.map_some']
  · show Option.map (fun q => q * 1000000) (some ((digitsVal ['2', '9', '2'] : ℚ))) =
      some 292000000
    rw [show digitsVal ['2', '9', '2'] = 292 from rfl]
    norm_num [Option.map_some']
  · show Option.map (fun q => q * 1000000000)
        (some ((digitsVal ['1'] : ℚ) +
          (digitsVal ['5'] : ℚ) / (10 : ℚ) ^ ((['5'] : List Char).length))) =
      some 1500000000
    rw [show digitsVal ['1'] = 1 from rfl, show digitsVal ['5'] = 5 from rfl]
    norm_num [Option.map_some']
  · show Option.map (fun q => q * 1000000000000)
        (some ((digitsVal ['2'] : ℚ) +
          (digitsVal ['5'] : ℚ) / (10 : ℚ) ^ ((['5'] : List Char).length))) =
      some 2500000000000
    rw [show digitsVal ['2'] = 2 from rfl, show digitsVal ['5'] = 5 from rfl]
    norm_num [Option.map_some']

/-- `_parse_latency_ms` of `core/zpool_iostat_collector.py`, on a character
list: `endswith('ms')` keeps the number as-is, `endswith('us')` divides by
1000, a remaining `endswith('s')` multiplies by 1000, otherwise the number is
taken as already in ms.  The `try`/`except (ValueError, IndexError)` wrapper
returning `0.0` is modelled by `Option.getD 0`. -/
def parse_latency_msL (cs0 : List Char) : ℚ :=
  if cs0 = [] ∨ cs0 = ['-'] then 0
  else
    let cs := stripL cs0
    let r : Option ℚ :=
      if cs.getLast? = some 's' ∧ cs.dropLast.getLast? = some 'm' then
        parseFloatL cs.dropLast.dropLast
      else if cs.getLast? = some 's' ∧ cs.dropLast.getLast? = some 'u' then
        (parseFloatL cs.dropLast.dropLast).map (fun q => q / 1000)
      else if cs.getLast? = some 's' then
        (parseFloatL cs.dropLast).map (fun q => q * 1000)
      else
        parseFloatL cs
    r.getD 0

/-- `_parse_latency_ms`. -/
def parse_latency_ms (lat_str : String) : ℚ :=
  parse_latency_msL lat_str.toList

/-- Counterexample to C6: the latency parser has no `ns` branch.  On
`"100ns"` the trailing `'s'` branch fires and `float("100n")` fails, so the
exception handler returns 0 rather than the 0.0001 ms the claim requires. -/
theorem parse_latency_ms_ns_counterexample :
    parse_latency_ms "100ns" = 0 ∧ parse_latency_ms "100ns" ≠ 1 / 10000 := by
  refine ⟨rfl, ?_⟩
  rw [show parse_latency_ms "100ns" = 0 from rfl]
  norm_num

/-- C6 (amended): the latency parser converts `us`, `ms`, `s` and unsuffixed
numeric strings to milliseconds and maps `"-"` to the zero result, but an
`ns`-suffixed number parses to 0 (there is no `ns` branch; the final `s`
branch strips only the `s` and the remaining `...n` fails the float parse). -/
theorem parse_latency_ms_branches :
    (∀ (l : List Char) (q : ℚ), (∀ c ∈ l, isPySpace c = false) →
      parseFloatL l = some q →
      parse_latency_msL (l ++ ['m', 's']) = q ∧
      parse_latency_msL (l ++ ['u', 's']) = q / 1000 ∧
      (l.getLast? ≠ some 'm' → l.getLast? ≠ some 'u' →
        parse_latency_msL (l ++ ['s']) = q * 1000) ∧
      (l.getLast? ≠ some 's' → parse_latency_msL l = q)) ∧
    (∀ l : List Char, (∀ c ∈ l, isPySpace c = false) →
      parse_latency_msL (l ++ ['n', 's']) = 0) ∧
    parse_latency_ms "-" = 0 := by
  have hne_dash : ∀ (l suf : List Char), suf.getLast? = some 's' →
      ¬(l ++ suf = [] ∨ l ++ suf = ['-']) := by
    intro l suf hs
    rintro (h | h) <;>
      · have hgl := congrArg List.getLast? h
        rw [List.getLast?_append, hs] at hgl
        simp at hgl
  have hstrip : ∀ (l suf : List Char), (∀ c ∈ l, isPySpace c = false) →
      (∀ c ∈ suf, isPySpace c = false) → stripL (l ++ suf) = l ++ suf := by
    intro l suf hws hsws
    refine stripL_eq_self _ ?_
    intro c hc
    rcases List.mem_append.mp hc with hc | hc
    · exact hws c hc
    · exact hsws c hc
  refine ⟨?_, ?_, rfl⟩
  · intro l q hws hq
    refine ⟨?_, ?_, ?_, ?_⟩
    · -- "ms" suffix
      unfold parse_latency_msL
      dsimp only
      rw [if_neg (hne_dash l ['m', 's'] rfl)]
      rw [hstrip l ['m', 's'] hws (by decide),
        show l ++ ['m', 's'] = (l ++ ['m']) ++ ['s'] by simp]
      rw [List.getLast?_concat, List.dropLast_concat, List.getLast?_concat,
        List.dropLast_concat]
      rw [if_pos ⟨rfl, rfl⟩, hq]
      rfl
    · -- "us" suffix
      unfold parse_latency_msL
      dsimp only
      rw [if_neg (hne_dash l ['u', 's'] rfl)]
      rw [hstrip l ['u', 's'] hws (by decide),
        show l ++ ['u', 's'] = (l ++ ['u']) ++ ['s'] by simp]
      rw [List.getLast?_concat, List.dropLast_concat, List.getLast?_concat,
        List.dropLast_concat]
      rw [if_neg (by rintro ⟨-, hbad⟩; cases hbad), if_pos ⟨rfl, rfl⟩, hq]
      rfl
    · -- bare "s" suffix
      intro hm hu
      unfold parse_latency_msL
      dsimp only
      rw [if_neg (hne_dash l ['s'] rfl)]
      rw [hstrip l ['s'] hws (by decide)]
      rw [List.getLast?_concat, List.dropLast_concat]
      rw [if_neg (by rintro ⟨-, hbad⟩; exact hm hbad),
        if_neg (by rintro ⟨-, hbad⟩; exact hu hbad),
        if_pos rfl, hq]
      rfl
    · -- unsuffixed numeric string
      intro hs
      have hlq : l ≠ [] := by
        rintro rfl
        rw [show parseFloatL [] = none from rfl] at hq
        cases hq
      have hld : l ≠ ['-'] := by
        rintro rfl
        rw [show parseFloatL ['-'] = none from rfl] at hq
        cases hq
      unfold parse_latency_msL
      dsimp only
      rw [if_neg (by rintro (h | h); exacts [hlq h, hld h])]
      rw [stripL_eq_self l hws]
      rw [if_neg (by rintro ⟨hbad, -⟩; exact hs hbad),
        if_neg (by rintro ⟨hbad, -⟩; exact hs hbad),
        if_neg (by intro hbad; exact hs hbad), hq]
      rfl
  · -- the missing "ns" branch parses to 0
    intro l hws
    unfold parse_latency_msL
    dsimp only
    rw [if_neg (hne_dash l ['n', 's'] rfl)]
    rw [hstrip l ['n', 's'] hws (by decide),
      show l ++ ['n', 's'] = (l ++ ['n']) ++ ['s'] by simp]
    rw [List.getLast?_concat, List.dropLast_concat, List.getLast?_concat,
      List.dropLast_concat]
    rw [if_neg (by rintro ⟨-, hbad⟩; cases hbad),
      if_neg (by rintro ⟨-, hbad⟩; cases hbad),
      if_pos rfl,
      parseFloatL_snoc_non_digit l 'n' (by decide) (by decide)]
    rfl

/-- Witness for the amended C6 statement at the numeric string `"2"`
(`parseFloatL` value 2): `"2ms"` → 2 ms, `"2us"` → 0.002 ms, `"2s"` → 2000 ms,
`"2"` → 2 ms, `"2ns"` → 0. -/
theorem parse_latency_ms_branches_witness :
    parse_latency_msL (['2'] ++ ['m', 's']) = 2 ∧
    parse_latency_msL (['2'] ++ ['u', 's']) = 2 / 1000 ∧
    parse_latency_msL (['2'] ++ ['s']) = 2 * 1000 ∧
    parse_latency_msL ['2'] = 2 ∧
    parse_latency_msL (['2'] ++ ['n', 's']) = 0 := by
  have h2 : parseFloatL ['2'] = some 2 := by
    rw [show parseFloatL ['2'] = some ((digitsVal ['2'] : ℚ)) from rfl,
      show digitsVal ['2'] = 2 from rfl]
    norm_num
  obtain ⟨ha, hb, hc, hd⟩ :=
    parse_latency_ms_branches.1 ['2'] 2 (by decide) h2
  exact ⟨ha, hb, hc (by decide) (by decide), hd (by decide),
    parse_latency_ms_branches.2.1 ['2'] (by decide)⟩

/-- `_parse_bandwidth_mbps` of `core/zpool_iostat_collector.py`, on a
character list.  The multiplier dict is `{'K': 0.001, 'M': 1.0, 'G': 1000.0}`
(decimal, straight to MB/s); an unsuffixed number is taken as bytes/sec and
divided by `1_000_000`.  The `try`/`except (ValueError, IndexError)` wrapper
returning `0.0` is modelled by `Option.getD 0` (with `none` for the
`bw_str[-1]` IndexError on an all-whitespace string). -/
def parse_bandwidth_mbpsL (cs0 : List Char) : ℚ :=
  if cs0 = [] ∨ cs0 = ['-'] then 0
  else
    let cs := stripL cs0
    let r : Option ℚ :=
      match cs.getLast? with
      | none => none
      | some c =>
          if c = 'K' then (parseFloatL cs.dropLast).map (fun q => q * (1 / 1000))
          else if c = 'M' then (parseFloatL cs.dropLast).map (fun q => q * 1)
          else if c = 'G' then (parseFloatL cs.dropLast).map (fun q => q * 1000)
          else (parseFloatL cs).map (fun q => q / 1000000)
    r.getD 0

/-- `_parse_bandwidth_mbps`. -/
def parse_bandwidth_mbps (bw_str : String) : ℚ :=
  parse_bandwidth_mbpsL bw_str.toList

/-- Counterexample to C5: `"1K"` parses to `1/1000` MB/s (decimal multiplier
`0.001`), not to `1024` bytes/sec `= 1024 / 2^20` MB/s as the claim states. -/
theorem parse_bandwidth_mbps_1K_counterexample :
    parse_bandwidth_mbps "1K" = 1 / 1000 ∧
    parse_bandwidth_mbps "1K" ≠ 1024 / 2 ^ 20 := by
  have h : parse_bandwidth_mbps "1K" = 1 / 1000 := by
    show Option.getD
        (Option.map (fun q => q * (1 / 1000)) (some ((digitsVal ['1'] : ℚ)))) 0 =
      1 / 1000
    rw [show digitsVal ['1'] = 1 from rfl]
    norm_num
  refine ⟨h, ?_⟩
  rw [h]
  norm_num

/-- C5 (amended): the collector's bandwidth parser converts straight to MB/s
with decimal multipliers — `K` means `value/1000` MB/s, `M` means `value`
MB/s, `G` means `value×1000` MB/s; an unsuffixed number is taken as bytes/sec
and divided by `10^6`; a `T`-suffixed string is unrecognised and yields 0
(the fall-through float parse fails and the exception handler returns 0);
`"-"` yields 0.  (The binary-multiplier parse the claim describes is the
`parse_bandwidth` of `core/analytics.py`, not this function.) -/
theorem parse_bandwidth_mbps_decimal :
    (∀ (l : List Char) (q : ℚ), (∀ c ∈ l, isPySpace c = false) →
      parseFloatL l = some q →
      parse_bandwidth_mbpsL (l ++ ['K']) = q * (1 / 1000) ∧
      parse_bandwidth_mbpsL (l ++ ['M']) = q * 1 ∧
      parse_bandwidth_mbpsL (l ++ ['G']) = q * 1000 ∧
      (l.getLast? ≠ some 'K' → l.getLast? ≠ some 'M' → l.getLast? ≠ some 'G' →
        parse_bandwidth_mbpsL l = q / 1000000)) ∧
    (∀ l : List Char, (∀ c ∈ l, isPySpace c = false) →
      parse_bandwidth_mbpsL (l ++ ['T']) = 0) ∧
    parse_bandwidth_mbps "-" = 0 := by
  have hne_dash : ∀ (l : List Char) (c : Char), c ≠ '-' →
      ¬(l ++ [c] = [] ∨ l ++ [c] = ['-']) := by
    intro l c hc
    rintro (h | h)
    · exact List.append_ne_nil_of_right_ne_nil l (by simp) h
    · have hgl := congrArg List.getLast? h
      rw [List.getLast?_concat] at hgl
      simp only [List.getLast?_singleton] at hgl
      exact hc (Option.some.inj hgl)
  have hstrip : ∀ (l : List Char) (c : Char), (∀ x ∈ l, isPySpace x = false) →
      isPySpace c = false → stripL (l ++ [c]) = l ++ [c] := by
    intro l c hws hc
    refine stripL_eq_self _ ?_
    intro x hx
    rcases List.mem_append.mp hx with hx | hx
    · exact hws x hx
    · rw [List.mem_singleton] at hx
      subst hx
      exact hc
  refine ⟨?_, ?_, rfl⟩
  · intro l q hws hq
    refine ⟨?_, ?_, ?_, ?_⟩
    · unfold parse_bandwidth_mbpsL
      dsimp only
      rw [if_neg (hne_dash l 'K' (by decide)), hstrip l 'K' hws rfl,
        List.getLast?_concat, List.dropLast_concat]
      dsimp only
      rw [if_pos rfl, hq]
      rfl
    · unfold parse_bandwidth_mbpsL
      dsimp only
      rw [if_neg (hne_dash l 'M' (by decide)), hstrip l 'M' hws rfl,
        List.getLast?_concat, List.dropLast_concat]
      dsimp only
      rw [if_neg (by decide), if_pos rfl, hq]
      rfl
    · unfold parse_bandwidth_mbpsL
      dsimp only
      rw [if_neg (hne_dash l 'G' (by decide)), hstrip l 'G' hws rfl,
        List.getLast?_concat, List.dropLast_concat]
      dsimp only
      rw [if_neg (by decide), if_neg (by decide), if_pos rfl, hq]
      rfl
    · intro hK hM hG
      have hlq : l ≠ [] := by
        rintro rfl
        rw [show parseFloatL [] = none from rfl] at hq
        cases hq
      have hld : l ≠ ['-'] := by
        rintro rfl
        rw [show parseFloatL ['-'] = none from rfl] at hq
        cases hq
      unfold parse_bandwidth_mbpsL
      dsimp only
      rw [if_neg (by rintro (h | h); exacts [hlq h, hld h]),
        stripL_eq_self l hws]
      rcases hgl : l.getLast? with _ | c
      · exact absurd (List.getLast?_eq_none_iff.mp hgl) hlq
      · dsimp only
        rw [if_neg (fun h => hK (by rw [hgl, h])),
          if_neg (fun h => hM (by rw [hgl, h])),
          if_neg (fun h => hG (by rw [hgl, h])), hq]
        rfl
  · intro l hws
    unfold parse_bandwidth_mbpsL
    dsimp only
    rw [if_neg (hne_dash l 'T' (by decide)), hstrip l 'T' hws rfl,
      List.getLast?_concat, List.dropLast_concat]
    dsimp only
    rw [if_neg (by decide), if_neg (by decide), if_neg (by decide),
      parseFloatL_snoc_non_digit l 'T' (by decide) (by decide)]
    rfl

/-- Witness for the amended C5 statement at the numeric string `"2"`
(`parseFloatL` value 2), plus the unrecognised `"2T"`. -/
theorem parse_bandwidth_mbps_decimal_witness :
    parse_bandwidth_mbpsL (['2'] ++ ['K']) = 2 * (1 / 1000) ∧
    parse_bandwidth_mbpsL (['2'] ++ ['M']) = 2 * 1 ∧
    parse_bandwidth_mbpsL (['2'] ++ ['G']) = 2 * 1000 ∧
    parse_bandwidth_mbpsL ['2'] = 2 / 1000000 ∧
    parse_bandwidth_mbpsL (['2'] ++ ['T']) = 0 := by
  have h2 : parseFloatL ['2'] = some 2 := by
    rw [show parseFloatL ['2'] = some ((digitsVal ['2'] : ℚ)) from rfl,
      show digitsVal ['2'] = 2 from rfl]
    norm_num
  obtain ⟨ha, hb, hc, hd⟩ :=
    parse_bandwidth_mbps_decimal.1 ['2'] 2 (by decide) h2
  exact ⟨ha, hb, hc, hd (by decide) (by decide) (by decide),
    parse_bandwidth_mbps_decimal.2.1 ['2'] (by decide)⟩

/-! ### The statistical reducer `_calculate_stats` -/

/-- The output record of `_calculate_stats`.  `std_dev` and `cv_percent` are
irrational in general, so the record keeps the exact rational `variance`;
`std_dev = sqrt variance` and `cv_percent` are derived below (`stdDev`,
`cvPercent`). -/
structure Stats where
  count : ℕ
  mean : ℚ
  median : ℚ
  min : ℚ
  max : ℚ
  p50 : ℚ
  p90 : ℚ
  p95 : ℚ
  p99 : ℚ
  variance : ℚ
deriving DecidableEq, Repr

/-- Python `sorted(values)`: the ascending sort (ties are equal rationals, so
any correct sort gives the same list). -/
def sortedVals (values : List ℚ) : List ℚ :=
  values.insertionSort (fun a b => a ≤ b)

/-- The inner `percentile(p)` closure of `_calculate_stats`.  Python `int()`
truncation of the (nonnegative) interpolation index is `Int.toNat ∘ Int.floor`. -/
def percentile (sorted_vals : List ℚ) (n : ℕ) (p : ℚ) : ℚ :=
  let idx : ℚ := p / 100 * ((n : ℚ) - 1)
  let lower : ℕ := (Int.floor idx).toNat
  let upper : ℕ := Nat.min (lower + 1) (n - 1)
  let frac : ℚ := idx - (lower : ℚ)
  sorted_vals.getD lower 0 + frac * (sorted_vals.getD upper 0 - sorted_vals.getD lower 0)

/-- `_calculate_stats` (the empty input returns `{}`, modelled as `none`). -/
def calculate_stats (values : List ℚ) : Option Stats :=
  if values = [] then none
  else
    let n := values.length
    let sorted_vals := sortedVals values
    let mean := values.sum / (n : ℚ)
    let mid := n / 2
    let median :=
      if n % 2 = 1 then sorted_vals.getD mid 0
      else (sorted_vals.getD (mid - 1) 0 + sorted_vals.getD mid 0) / 2
    let variance := (values.map (fun x => (x - mean) ^ 2)).sum / (n : ℚ)
    some { count := n, mean := mean, median := median,
           min := sorted_vals.getD 0 0, max := sorted_vals.getD (n - 1) 0,
           p50 := percentile sorted_vals n 50, p90 := percentile sorted_vals n 90,
           p95 := percentile sorted_vals n 95, p99 := percentile sorted_vals n 99,
           variance := variance }

/-- `std_dev = variance ** 0.5`. -/
noncomputable def stdDev (s : Stats) : ℝ :=
  Real.sqrt (s.variance : ℝ)

/-- `cv_percent = (std_dev / mean * 100) if mean != 0 else 0`. -/
noncomputable def cvPercent (s : Stats) : ℝ :=
  if (s.mean : ℝ) ≠ 0 then stdDev s / (s.mean : ℝ) * 100 else 0

/-- Written from the spec's words (§4.6), to be compared with the code's
`percentile`: linear interpolation at index `P/100 × (n−1)`, fraction `f`
between `sorted[floor]` and `sorted[floor+1]` with `floor+1` clamped to
`n−1`. -/
def percentileSpec (sorted : List ℚ) (n : ℕ) (p : ℚ) : ℚ :=
  let idx : ℚ := p / 100 * ((n : ℚ) - 1)
  let lo : ℕ := (Int.floor idx).toNat
  let hi : ℕ := Nat.min (lo + 1) (n - 1)
  let f : ℚ := idx - (lo : ℚ)
  (1 - f) * sorted.getD lo 0 + f * sorted.getD hi 0

/-- Written from the spec's words: the median is the middle value for odd `n`
and the mean of the two middle values for even `n`. -/
def medianSpec (sorted : List ℚ) (n : ℕ) : ℚ :=
  if n % 2 = 1 then sorted.getD (n / 2) 0
  else (sorted.getD (n / 2 - 1) 0 + sorted.getD (n / 2) 0) / 2

/-- Written from the spec's words: the population variance `Σ(x−mean)²/n`. -/
def varianceSpec (values : List ℚ) : ℚ :=
  (values.map (fun x => (x - values.sum / (values.length : ℚ)) ^ 2)).sum /
    (values.length : ℚ)

theorem percentile_eq_spec (sorted : List ℚ) (n : ℕ) (p : ℚ) :
    percentile sorted n p = percentileSpec sorted n p := by
  unfold percentile percentileSpec
  ring

/-- The reducer output on `[1,2,3,4,5]` (`p90 = 4.6`, `p95 = 4.8`,
`p99 = 4.96`, population variance 2, `std_dev = √2`). -/
def statsExample : Stats :=
  { count := 5, mean := 3, median := 3, min := 1, max := 5,
    p50 := 3, p90 := 23 / 5, p95 := 24 / 5, p99 := 124 / 25, variance := 2 }

/-- C4: on every non-empty input the reducer computes each percentile by the
spec's linear interpolation, the median as middle value / mean of middle
values, the population variance `Σ(x−mean)²/n` with `std_dev` its square
root, and `cv_percent = std_dev/mean×100` (0 when the mean is 0); on
`[1,2,3,4,5]` it returns count 5, mean 3, median 3, min 1, max 5, p50 3,
p90 4.6, p95 4.8, p99 4.96, `std_dev = √2 ≈ 1.414213`, and
`cv_percent ≈ 47.1404`. -/
theorem calculate_stats_correct :
    (∀ (values : List ℚ) (s : Stats), calculate_stats values = some s →
      s.p50 = percentileSpec (sortedVals values) values.length 50 ∧
      s.p90 = percentileSpec (sortedVals values) values.length 90 ∧
      s.p95 = percentileSpec (sortedVals values) values.length 95 ∧
      s.p99 = percentileSpec (sortedVals values) values.length 99 ∧
      s.median = medianSpec (sortedVals values) values.length ∧
      s.variance = varianceSpec values ∧
      stdDev s = Real.sqrt ((varianceSpec values : ℚ) : ℝ) ∧
      (s.mean = 0 → cvPercent s = 0) ∧
      (s.mean ≠ 0 → cvPercent s = stdDev s / (s.mean : ℝ) * 100)) ∧
    calculate_stats [1, 2, 3, 4, 5] = some statsExample ∧
    stdDev statsExample = Real.sqrt 2 ∧
    (1.414213 < stdDev statsExample ∧ stdDev statsExample < 1.414214) ∧
    (47.1404 < cvPercent statsExample ∧ cvPercent statsExample < 47.1405) := by
  have hsqrt_lo : (1.414213 : ℝ) < Real.sqrt 2 :=
    (Real.lt_sqrt (by norm_num)).mpr (by norm_num)
  have hsqrt_hi : Real.sqrt 2 < 1.414214 :=
    (Real.sqrt_lt' (by norm_num)).mpr (by norm_num)
  have hsd : stdDev statsExample = Real.sqrt 2 := by
    unfold stdDev statsExample
    norm_num
  have hcv : cvPercent statsExample = Real.sqrt 2 / 3 * 100 := by
    unfold cvPercent statsExample stdDev
    norm_num
  refine ⟨?_, ?_, hsd, ?_, ?_⟩
  · intro values s h
    unfold calculate_stats at h
    by_cases hv : values = []
    · rw [if_pos hv] at h
      cases h
    · rw [if_neg hv] at h
      dsimp only at h
      have hs := Option.some.inj h
      subst hs
      refine ⟨percentile_eq_spec _ _ _, percentile_eq_spec _ _ _,
        percentile_eq_spec _ _ _, percentile_eq_spec _ _ _, rfl, rfl, rfl,
        ?_, ?_⟩
      · intro h0
        unfold cvPercent
        rw [if_neg (fun hne => hne (by rw [h0]; norm_num))]
      · intro h0
        unfold cvPercent
        rw [if_pos (by exact_mod_cast h0)]
  · -- concrete evaluation on [1,2,3,4,5]
    have hsort : sortedVals [1, 2, 3, 4, 5] = [1, 2, 3, 4, 5] := by
      norm_num [sortedVals, List.insertionSort, List.orderedInsert]
    have g0 : ([1, 2, 3, 4, 5] : List ℚ).getD 0 0 = 1 := rfl
    have g1 : ([1, 2, 3, 4, 5] : List ℚ).getD 1 0 = 2 := rfl
    have g2 : ([1, 2, 3, 4, 5] : List ℚ).getD 2 0 = 3 := rfl
    have g3 : ([1, 2, 3, 4, 5] : List ℚ).getD 3 0 = 4 := rfl
    have g4 : ([1, 2, 3, 4, 5] : List ℚ).getD 4 0 = 5 := rfl
    have hp : ∀ p : ℚ, ∀ fl : ℤ, ∀ r : ℚ, (0 : ℤ) ≤ fl →
        ⌊p / 100 * (((5 : ℕ) : ℚ) - 1)⌋ = fl →
        ([1, 2, 3, 4, 5] : List ℚ).getD fl.toNat 0 +
          (p / 100 * (((5 : ℕ) : ℚ) - 1) - (fl.toNat : ℚ)) *
            (([1, 2, 3, 4, 5] : List ℚ).getD (Nat.min (fl.toNat + 1) (5 - 1)) 0 -
              ([1, 2, 3, 4, 5] : List ℚ).getD fl.toNat 0) = r →
        percentile [1, 2, 3, 4, 5] 5 p = r := by
      intro p fl r _ hfl hr
      unfold percentile
      dsimp only
      rw [hfl]
      exact hr
    have hp50 : percentile [1, 2, 3, 4, 5] 5 50 = 3 := by
      refine hp 50 2 3 (by norm_num) ?_ ?_
      · rw [Int.floor_eq_iff]; norm_num
      · rw [show ((2 : ℤ).toNat) = 2 from rfl]
        rw [show Nat.min (2 + 1) (5 - 1) = 3 from rfl, g2, g3]
        norm_num
    have hp90 : percentile [1, 2, 3, 4, 5] 5 90 = 23 / 5 := by
      refine hp 90 3 (23 / 5) (by norm_num) ?_ ?_
      · rw [Int.floor_eq_iff]; norm_num
      · rw [show ((3 : ℤ).toNat) = 3 from rfl]
        rw [show Nat.min (3 + 1) (5 - 1) = 4 from rfl, g3, g4]
        norm_num
    have hp95 : percentile [1, 2, 3, 4, 5] 5 95 = 24 / 5 := by
      refine hp 95 3 (24 / 5) (by norm_num) ?_ ?_
      · rw [Int.floor_eq_iff]; norm_num
      · rw [show ((3 : ℤ).toNat) = 3 from rfl]
        rw [show Nat.min (3 + 1) (5 - 1) = 4 from rfl, g3, g4]
        norm_num
    have hp99 : percentile [1, 2, 3, 4, 5] 5 99 = 124 / 25 := by
      refine hp 99 3 (124 / 25) (by norm_num) ?_ ?_
      · rw [Int.floor_eq_iff]; norm_num
      · rw [show ((3 : ℤ).toNat) = 3 from rfl]
        rw [show Nat.min (3 + 1) (5 - 1) = 4 from rfl, g3, g4]
        norm_num
    unfold calculate_stats
    rw [if_neg (by simp)]
    dsimp only
    rw [show ([1, 2, 3, 4, 5] : List ℚ).length = 5 from rfl, hsort]
    rw [Option.some_inj]
    unfold statsExample
    rw [Stats.mk.injEq]
    exact ⟨rfl, by norm_num [List.sum_cons, List.sum_nil], rfl, rfl, rfl,
      hp50, hp90, hp95, hp99,
      by norm_num [List.sum_cons, List.sum_nil, List.map_cons, List.map_nil]⟩
  · exact ⟨hsd ▸ hsqrt_lo, hsd ▸ hsqrt_hi⟩
  · constructor
    · rw [hcv]
      nlinarith [hsqrt_lo]
    · rw [hcv]
      nlinarith [hsqrt_hi]

/-- Witness for C4's general clause at the concrete input `[1,2,3,4,5]`,
whose reducer output is `statsExample`. -/
theorem calculate_stats_correct_witness :
    statsExample.p50 = percentileSpec (sortedVals [1, 2, 3, 4, 5]) 5 50 ∧
    statsExample.median = medianSpec (sortedVals [1, 2, 3, 4, 5]) 5 ∧
    statsExample.variance = varianceSpec [1, 2, 3, 4, 5] := by
  obtain ⟨hgen, hconc, -⟩ := calculate_stats_correct
  obtain ⟨h50, -, -, -, hmed, hvar, -⟩ :=
    hgen [1, 2, 3, 4, 5] statsExample hconc
  exact ⟨h50, hmed, hvar⟩

/-! ### DWPD (`calculate_dwpd` of `truenas-bench.py`) -/

/-- `calculate_dwpd`: Drive Writes Per Day. -/
def calculate_dwpd (total_writes_gib pool_capacity_gib test_duration_seconds : ℚ) : ℚ :=
  if pool_capacity_gib ≤ 0 then 0
  else
    let writes_per_second := total_writes_gib / pool_capacity_gib / test_duration_seconds
    writes_per_second * 86400

/-- C9: the DWPD computation returns `(w / cap) / dur × 86400` when
`cap > 0` and `0` when `cap ≤ 0`; on `w = 100`, `cap = 1000`,
`dur = 86400` it yields `0.1`. -/
theorem calculate_dwpd_spec :
    (∀ w cap dur : ℚ, 0 < cap →
      calculate_dwpd w cap dur = w / cap / dur * 86400) ∧
    (∀ w cap dur : ℚ, cap ≤ 0 → calculate_dwpd w cap dur = 0) ∧
    calculate_dwpd 100 1000 86400 = 1 / 10 := by
  refine ⟨?_, ?_, ?_⟩
  · intro w cap dur hcap
    unfold calculate_dwpd
    rw [if_neg (not_le.mpr hcap)]
  · intro w cap dur hcap
    unfold calculate_dwpd
    rw [if_pos hcap]
  · unfold calculate_dwpd
    rw [if_neg (by norm_num)]
    norm_num

/-- Witness for C9 at the spec's concrete scenario S5. -/
theorem calculate_dwpd_spec_witness :
    calculate_dwpd 100 1000 86400 = 100 / 1000 / 86400 * 86400 ∧
    calculate_dwpd 100 0 86400 = 0 :=
  ⟨calculate_dwpd_spec.1 100 1000 86400 (by norm_num),
   calculate_dwpd_spec.2.1 100 0 86400 (by norm_num)⟩

/-! ### Robust dataset deletion (`_robust_dataset_cleanup` of `truenas-bench.py`)

The function talks to the NAS API: `get_datasets()` re-queries the dataset
list and `midclt call pool.dataset.delete` attempts a delete.  The external
world is modelled as an environment of two oracle streams indexed by call
number: `present k` tells whether the target dataset is listed by the `k`-th
`get_datasets()` call, and `delOk k` whether the `k`-th delete call exits
with code 0.  The embedding returns the final boolean together with the log
of all `present` answers, in order. -/

/-- Environment of the cleanup loop: answers of successive dataset-list
queries (`true` = target still listed) and delete-call exit states. -/
structure CleanupEnv where
  present : ℕ → Bool
  delOk : ℕ → Bool

/-- The attempt loop of `_robust_dataset_cleanup`, by remaining attempts.
`q`/`d` count the queries and deletes already made.  Per attempt: re-query
(absent → return `true`); delete; if `verify` is false, a zero exit returns
`true` and a failure `continue`s (skipping escalation); otherwise re-query
(absent → `true`), and if not yet forced and attempts remain, escalate to
`force := true`. -/
def robustLoop (env : CleanupEnv) (q d : ℕ) (force verify : Bool) :
    ℕ → Bool × List Bool
  | 0 => (false, [])
  | Nat.succ n =>
      if env.present q = false then (true, [false])
      else
        let ok := env.delOk d
        if verify = false then
          if ok then (true, [true])
          else
            let r := robustLoop env (q + 1) (d + 1) force verify n
            (r.1, true :: r.2)
        else
          if env.present (q + 1) = false then (true, [true, false])
          else
            let force' := force || decide (1 ≤ n)
            let r := robustLoop env (q + 2) (d + 1) force' verify n
            (r.1, true :: true :: r.2)

/-- `_robust_dataset_cleanup(dataset_name, retry_count, force, verify)`,
returning the result and the ordered log of dataset-list query answers. -/
def robust_dataset_cleanup (env : CleanupEnv) (retry_count : ℕ)
    (force verify : Bool) : Bool × List Bool :=
  robustLoop env 0 0 force verify retry_count

/-- The always-present environment: every dataset-list query still shows the
target, yet every delete call reports exit code 0. -/
def allPresentEnv : CleanupEnv :=
  { present := fun _ => true, delOk := fun _ => true }

/-- Counterexample to C8: with `verify = false` a zero delete exit code is
trusted without any confirming re-query — here the call returns `true`
although the one query it made (and every later one) shows the dataset still
present. -/
theorem robust_cleanup_counterexample :
    (robust_dataset_cleanup allPresentEnv 1 false false).1 = true ∧
    (robust_dataset_cleanup allPresentEnv 1 false false).2.getLast? = some true ∧
    allPresentEnv.present 1 = true := by
  refine ⟨rfl, rfl, rfl⟩

/-- C8 (amended): with `verify = true` (any retry count, any initial force
flag, any environment), the call returns `true` exactly when the final
dataset-list query it performed showed the target dataset absent; with
`verify = false` this fails (see the counterexample). -/
theorem robustLoop_verify_iff (env : CleanupEnv) (n : ℕ) :
    ∀ (q d : ℕ) (force : Bool),
      (robustLoop env q d force true n).1 = true ↔
      (robustLoop env q d force true n).2.getLast? = some false := by
  induction n with
  | zero =>
      intro q d force
      simp [robustLoop]
  | succ n ih =>
      intro q d force
      unfold robustLoop
      by_cases h1 : env.present q = false
      · rw [if_pos h1]
        simp
      · rw [if_neg h1]
        dsimp only
        rw [if_neg (by simp)]
        by_cases h2 : env.present (q + 1) = false
        · rw [if_pos h2]
          simp
        · rw [if_neg h2]
          dsimp only
          have hrec := ih (q + 2) (d + 1) (force || decide (1 ≤ n))
          rcases hlog : (robustLoop env (q + 2) (d + 1) (force || decide (1 ≤ n)) true n).2
            with _ | ⟨x, xs⟩
          · rw [hlog] at hrec
            simp only [List.getLast?_cons_cons, hlog, List.getLast?_singleton]
            rw [hrec]
            simp
          · rw [hlog] at hrec
            rw [List.getLast?_cons_cons, List.getLast?_cons_cons]
            exact hrec

theorem robust_cleanup_verify_iff (env : CleanupEnv) (retry_count : ℕ)
    (force : Bool) :
    (robust_dataset_cleanup env retry_count force true).1 = true ↔
    (robust_dataset_cleanup env retry_count force true).2.getLast? = some false :=
  robustLoop_verify_iff env retry_count 0 0 force

/-! ### The pool workload driver (`benchmarks/zfs_pool.py`)

`run_single_iteration` and `ZFSPoolBenchmark._run_benchmark_with_zpool_iostat`
interact with the outside world by spawning `dd` subprocesses, deleting the
per-iteration files, and calling methods of the zpool-iostat collector.
Those observable actions are modelled as event traces, in program order
(parallel `dd` fan-outs listed in spawn order `i = 0..threads-1`).
Wall-clock measurement and terminal printing have no effect on the collector
and are not modelled. -/

/-- An observable action of the workload driver. -/
inductive DriverEvent where
  | segmentChange (label : String)
  | spawnDD (command : String)
  | removeFile (path : String)
deriving DecidableEq, Repr

/-- The write-phase `dd` command line built in `run_single_iteration`. -/
def ddWriteCommand (dataset_path file_pfx : String) (i : ℕ)
    (block_size : String) (count : ℕ) : String :=
  "dd if=/dev/urandom of=" ++ dataset_path ++ "/" ++ file_pfx ++ toString i ++
    ".dat bs=" ++ block_size ++ " count=" ++ toString count ++ " status=none"

/-- The read-phase `dd` command line built in `run_single_iteration`. -/
def ddReadCommand (dataset_path file_pfx : String) (i : ℕ)
    (block_size : String) (count : ℕ) : String :=
  "dd if=" ++ dataset_path ++ "/" ++ file_pfx ++ toString i ++
    ".dat of=/dev/null bs=" ++ block_size ++ " count=" ++ toString count ++
    " status=none"

/-- The observable action trace of `run_single_iteration(threads,
bytes_per_thread, block_size, file_prefix, dataset_path, iteration_num)`:
the write fan-out, the read fan-out, then `cleanup_test_files`.  The
function never invokes any segment-change callback — it takes none and
calls no collector method. -/
def run_single_iteration_trace (threads bytes_per_thread : ℕ)
    (block_size file_pfx dataset_path : String) : List DriverEvent :=
  ((List.range threads).map fun i =>
    DriverEvent.spawnDD (ddWriteCommand dataset_path file_pfx i block_size bytes_per_thread)) ++
  ((List.range threads).map fun i =>
    DriverEvent.spawnDD (ddReadCommand dataset_path file_pfx i block_size bytes_per_thread)) ++
  ((List.range threads).map fun i =>
    DriverEvent.removeFile (dataset_path ++ "/" ++ file_pfx ++ toString i ++ ".dat"))

/-- The segment labels a trace delivers to the telemetry collector. -/
def segmentLabels (tr : List DriverEvent) : List String :=
  tr.filterMap fun e =>
    match e with
    | DriverEvent.segmentChange l => some l
    | _ => none

/-- A call the benchmark makes on the `ZpoolIostatCollector`. -/
inductive CollectorCall where
  | start (warmup_iterations : ℕ)
  | benchmark_start
  | benchmark_end
  | segment_change (label : String)
  | stop (cooldown_iterations : ℕ)
deriving DecidableEq, Repr

/-- The thread-count sweep `[1, cores // 4, cores // 2, cores]`. -/
def thread_counts (cores : ℕ) : List ℕ :=
  [1, cores / 4, cores / 2, cores]

/-- The collector calls made by
`ZFSPoolBenchmark._run_benchmark_with_zpool_iostat` (collector started
successfully, no interrupt): `start(warmup)`, then per thread count and
iteration a `signal_benchmark_start` on the first iteration of the first
thread-count value and a `signal_benchmark_end` on the last iteration of the
last value, and finally `stop(cooldown)`.  No `signal_segment_change` call
occurs anywhere in the method. -/
def run_benchmark_collector_calls (cores iterations warmup cooldown : ℕ) :
    List CollectorCall :=
  [CollectorCall.start warmup] ++
  ((thread_counts cores).flatMap fun threads =>
    (List.range iterations).flatMap fun it =>
      (if it + 1 = 1 ∧ threads = (thread_counts cores).headI then
        [CollectorCall.benchmark_start] else []) ++
      (if it + 1 = iterations ∧ threads = (thread_counts cores).getLastD 0 then
        [CollectorCall.benchmark_end] else [])) ++
  [CollectorCall.stop cooldown]

/-- The segment labels the collector receives from the benchmark's calls. -/
def collectorSegmentLabels (calls : List CollectorCall) : List String :=
  calls.filterMap fun c =>
    match c with
    | CollectorCall.segment_change l => some l
    | _ => none

/-- C1 (evaluation at the failing input): the workload driver never emits a
segment-change — `run_single_iteration` has no callback parameter and
`_run_benchmark_with_zpool_iostat` never calls `signal_segment_change` — so
for a single iteration with `threads = 1` the collector observes the label
sequence `[]`, not `["1T-write", "1T-read"]`. -/
theorem run_single_iteration_no_segment_labels :
    (∀ (threads bytes_per_thread : ℕ) (bs fp dp : String),
      segmentLabels (run_single_iteration_trace threads bytes_per_thread bs fp dp) = []) ∧
    (∀ cores iterations warmup cooldown : ℕ,
      collectorSegmentLabels
        (run_benchmark_collector_calls cores iterations warmup cooldown) = []) ∧
    segmentLabels
        (run_single_iteration_trace 1 20480 "1M" "file_" "/mnt/tank/tn-bench") ≠
      ["1T-write", "1T-read"] := by
  have h1 : ∀ (threads bytes_per_thread : ℕ) (bs fp dp : String),
      segmentLabels (run_single_iteration_trace threads bytes_per_thread bs fp dp) = [] := by
    intro threads bpt bs fp dp
    unfold segmentLabels run_single_iteration_trace
    simp [List.filterMap_append, List.filterMap_map, Function.comp]
  refine ⟨h1, ?_, ?_⟩
  · intro cores iterations warmup cooldown
    unfold collectorSegmentLabels run_benchmark_collector_calls
    rw [List.filterMap_eq_nil_iff]
    intro c hc
    rcases List.mem_append.mp hc with hc1 | hc1
    · rcases List.mem_append.mp hc1 with hc2 | hc2
      · rw [List.mem_singleton] at hc2
        subst hc2
        rfl
      · obtain ⟨threads, -, hc3⟩ := List.mem_flatMap.mp hc2
        obtain ⟨it, -, hc4⟩ := List.mem_flatMap.mp hc3
        rcases List.mem_append.mp hc4 with h | h <;> split at h <;>
          first
            | (rw [List.mem_singleton] at h
               subst h
               rfl)
            | cases h
    · rw [List.mem_singleton] at hc1
      subst hc1
      rfl
  · rw [h1]
    simp

/-! ### Pool block size: `ZFSPoolBenchmark.__init__` and `create_dataset` -/

/-- The instance attributes `ZFSPoolBenchmark.__init__` can set.  The
constructor signature is `(pool_name, cores, dataset_path, iterations=2,
collect_zpool_iostat=True, zpool_iostat_interval=1, zpool_iostat_warmup=3,
zpool_iostat_cooldown=3)` — it has NO block-size parameter. -/
structure ZFSPoolBenchmarkState where
  pool_name : String
  cores : ℕ
  dataset_path : String
  iterations : ℕ
  bytes_per_thread : ℕ
  block_size : String
  file_pfx : String
  collect_zpool_iostat : Bool
  zpool_iostat_interval : ℕ
  zpool_iostat_warmup : ℕ
  zpool_iostat_cooldown : ℕ
deriving DecidableEq, Repr

/-- `ZFSPoolBenchmark.__init__`: `bytes_per_thread = 20480`,
`block_size = "1M"` (hard-coded), `file_prefix = "file_"`. -/
def zfsPoolBenchmarkInit (pool_name : String) (cores : ℕ)
    (dataset_path : String) (iterations : ℕ)
    (collect_zpool_iostat : Bool) (zpool_iostat_interval : ℕ)
    (zpool_iostat_warmup : ℕ) (zpool_iostat_cooldown : ℕ) :
    ZFSPoolBenchmarkState :=
  { pool_name := pool_name
    cores := cores
    dataset_path := dataset_path
    iterations := iterations
    bytes_per_thread := 20480
    block_size := "1M"
    file_pfx := "file_"
    collect_zpool_iostat := collect_zpool_iostat
    zpool_iostat_interval := zpool_iostat_interval
    zpool_iostat_warmup := zpool_iostat_warmup
    zpool_iostat_cooldown := zpool_iostat_cooldown }

/-- The `dataset_config` payload `create_dataset` (`core/dataset.py`) sends
to `pool.dataset.create`: the record size is the requested value normalised
to uppercase. -/
structure DatasetConfig where
  name : String
  recordsize : String
  compression : String
  sync : String
deriving DecidableEq, Repr

/-- Python `str.upper()` on the ASCII record-size strings used here. -/
def pyUpper (s : String) : String :=
  String.mk (s.toList.map Char.toUpper)

/-- Python `pool_name.replace(" ", "\\ ")`: escape every space. -/
def escapeSpaces (s : String) : String :=
  String.mk (s.toList.flatMap fun c => if c = ' ' then ['\x5c', ' '] else [c])

/-- `create_dataset` builds its API payload with `recordsize_api =
recordsize.upper()` (`pyUpper`), `compression = "OFF"`, `sync = "DISABLED"`. -/
def dataset_config (pool_name recordsize : String) : DatasetConfig :=
  { name := escapeSpaces pool_name ++ "/tn-bench"
    recordsize := pyUpper recordsize
    compression := "OFF"
    sync := "DISABLED" }

/-- The write `dd` commands one benchmark iteration spawns, taken from the
state `__init__` built (`run_single_iteration` is called with
`self.block_size`). -/
def benchmark_write_commands (st : ZFSPoolBenchmarkState) (threads : ℕ) :
    List String :=
  (List.range threads).map fun i =>
    ddWriteCommand st.dataset_path st.file_pfx i st.block_size st.bytes_per_thread

/-- C3 (evaluation at the failing input): configuring pool block size
`"128k"` does reach the dataset record size (normalised to `"128K"`), but
`ZFSPoolBenchmark.__init__` takes no block-size argument and hard-codes
`block_size = "1M"` for every constructor input, so every `dd` command uses
`bs=1M`, never the configured value. -/
theorem pool_block_size_not_used_for_dd :
    (dataset_config ("tank") ("128k")).recordsize = "128K" ∧
    (∀ (pn : String) (cores : ℕ) (dp : String) (iters : ℕ) (ci : Bool)
      (zi zw zc : ℕ),
      (zfsPoolBenchmarkInit pn cores dp iters ci zi zw zc).block_size = "1M") ∧
    benchmark_write_commands
        (zfsPoolBenchmarkInit ("tank") 8 ("/mnt/tank/tn-bench") 2 true 1 3 3) 1 =
      ["dd if=/dev/urandom of=/mnt/tank/tn-bench/file_0.dat bs=1M count=20480 status=none"] ∧
    (zfsPoolBenchmarkInit ("tank") 8 ("/mnt/tank/tn-bench") 2 true 1 3 3).block_size ≠
      "128K" := by
  refine ⟨?_, fun _ _ _ _ _ _ _ _ => rfl, ?_, by decide⟩
  · decide
  · unfold benchmark_write_commands zfsPoolBenchmarkInit ddWriteCommand
    decide

end TnBench
